import Mathlib

/-!
Verification development for the `sde` crate (Eve Online SDE reader).

The Rust source (src/lib.rs, src/objects.rs) is shallowly embedded below:

* machine integers (`i64`, `u32`, ...) become `Int`/`Nat`; Rust's `/` on
  `i64` truncates toward zero, which is exactly Lean's `Int` division;
* `HashMap` becomes an association list (`List (k × v)`); the only map
  operations the source uses are `entry(..).or_insert(..)`,
  `entry(..).and_modify(..)`, `insert`, `len` and lookup, all modelled below;
* fallible code (`rusqlite::Error`, `std::io::Error`) returns `Except`;
* the sqlite store is modelled as a record of tables (`Db`); rusqlite's
  parameter-count check on `Statement::query` is modelled explicitly
  because several loaders depend on it;
* `&mut self` methods are modelled as state-passing functions that return
  the (possibly partially) mutated state together with the `Result`.
-/

set_option autoImplicit false

namespace Sde

/-! ## Association-list model of `std::collections::HashMap`

Iteration order of the Rust `HashMap` is irrelevant to every claim below;
the association list keeps first-insertion order. Keys stay unique because
the source only ever adds entries through `or_insert`/`insert`.
-/

/-- Keys of an association list, in order. -/
def keysOf {α β : Type} (l : List (α × β)) : List α :=
  l.map Prod.fst

/-- First value stored under a key, if any (`HashMap` lookup). -/
def lookupA {α β : Type} [DecidableEq α] : List (α × β) → α → Option β
  | [], _ => none
  | e :: es, k => if e.1 = k then some e.2 else lookupA es k

/-- Model of `HashMap::entry(k).or_insert(v)`: insert only when the key is
absent; an existing entry is left untouched. -/
def orInsert {α β : Type} [DecidableEq α] (l : List (α × β)) (k : α) (v : β) :
    List (α × β) :=
  if k ∈ keysOf l then l else l ++ [(k, v)]

/-- Model of `HashMap::entry(k).and_modify(f)`: rewrite the value stored
under `k` when present, never inserting a missing key. -/
def andModify {α β : Type} [DecidableEq α] (l : List (α × β)) (k : α) (f : β → β) :
    List (α × β) :=
  l.map (fun e => if e.1 = k then (e.1, f e.2) else e)

theorem keysOf_nil {α β : Type} : keysOf ([] : List (α × β)) = [] := rfl

theorem keysOf_cons {α β : Type} (e : α × β) (es : List (α × β)) :
    keysOf (e :: es) = e.1 :: keysOf es := rfl

theorem keysOf_append {α β : Type} (l₁ l₂ : List (α × β)) :
    keysOf (l₁ ++ l₂) = keysOf l₁ ++ keysOf l₂ := by
  simp [keysOf]

theorem lookupA_cons {α β : Type} [DecidableEq α] (e : α × β) (es : List (α × β)) (k : α) :
    lookupA (e :: es) k = if e.1 = k then some e.2 else lookupA es k := rfl

theorem andModify_cons {α β : Type} [DecidableEq α]
    (e : α × β) (es : List (α × β)) (k : α) (f : β → β) :
    andModify (e :: es) k f =
      (if e.1 = k then (e.1, f e.2) else e) :: andModify es k f := by
  simp [andModify]

theorem mem_keysOf_orInsert_self {α β : Type} [DecidableEq α]
    (l : List (α × β)) (k : α) (v : β) : k ∈ keysOf (orInsert l k v) := by
  unfold orInsert
  by_cases h : k ∈ keysOf l
  · rw [if_pos h]; exact h
  · rw [if_neg h, keysOf_append]
    exact List.mem_append_right _ (by simp [keysOf])

theorem mem_keysOf_orInsert_of_mem {α β : Type} [DecidableEq α]
    (l : List (α × β)) (k k' : α) (v : β) (h : k' ∈ keysOf l) :
    k' ∈ keysOf (orInsert l k v) := by
  unfold orInsert
  by_cases hk : k ∈ keysOf l
  · rw [if_pos hk]; exact h
  · rw [if_neg hk, keysOf_append]
    exact List.mem_append_left _ h

theorem orInsert_of_mem {α β : Type} [DecidableEq α]
    (l : List (α × β)) (k : α) (v : β) (h : k ∈ keysOf l) :
    orInsert l k v = l := by
  simp [orInsert, h]

theorem keysOf_andModify {α β : Type} [DecidableEq α]
    (l : List (α × β)) (k : α) (f : β → β) :
    keysOf (andModify l k f) = keysOf l := by
  induction l with
  | nil => rfl
  | cons e es ih =>
      rw [andModify_cons]
      by_cases he : e.1 = k <;> simp [he, keysOf_cons, ih]

theorem lookupA_andModify_ne {α β : Type} [DecidableEq α]
    (l : List (α × β)) (k k' : α) (f : β → β) (h : k ≠ k') :
    lookupA (andModify l k f) k' = lookupA l k' := by
  induction l with
  | nil => rfl
  | cons e es ih =>
      rw [andModify_cons]
      by_cases he : e.1 = k
      · have hne : e.1 ≠ k' := by rw [he]; exact h
        simp [lookupA_cons, he, hne, ih, h]
      · simp only [if_neg he, lookupA_cons, ih]

/-! ## Rust `as f32` narrowing

Rust's `i64 as f32` rounds to the nearest representable `f32`, ties to
even. Every `i64` is far below the `f32` overflow threshold (2^128), so
the cast never saturates. Since every `f32` obtained from an integer of
`i64` range has an exact integer value, the result is represented here as
that exact integer. -/

/-- Round a natural number to the nearest `f32` (24-bit significand,
round to nearest, ties to even), returned as its exact integer value. -/
def natAsF32 (m : Nat) : Nat :=
  if m ≤ 2 ^ 24 then m
  else
    let e := m.log2 - 23
    let p := 2 ^ e
    let q := m / p
    let r := m % p
    if 2 * r < p then q * p
    else if p < 2 * r then (q + 1) * p
    else if q % 2 = 0 then q * p else (q + 1) * p

/-- Model of Rust's `i64 as f32` cast (value of the resulting float). -/
def i64AsF32 (n : Int) : Int :=
  if 0 ≤ n then (natAsF32 n.toNat : Int) else -(natAsF32 (-n).toNat : Int)

/-- Value of `f32::MAX as i64` in Rust: the cast saturates at `i64::MAX`
because `f32::MAX` (≈ 3.4e38) exceeds every `i64`. -/
def f32MaxAsI64 : Int := 2 ^ 63 - 1

/-- Value of `f32::MIN as i64` in Rust: saturates at `i64::MIN`. -/
def f32MinAsI64 : Int := -(2 ^ 63)

/-! ## `objects.rs`: `SdePoint` and friends -/

/-- Embedding of `SdePoint` (objects.rs): three `i64` axes. -/
structure SdePoint where
  x : Int
  y : Int
  z : Int
deriving DecidableEq, Repr

/-- Modelled from the spec: `RawPoint` of the external `egui_map` crate, a
render-facing 2D point "in final float units"; the two `f32` coordinates
are kept as their exact integer values. -/
structure RawPoint where
  x : Int
  y : Int
deriving DecidableEq, Repr

/-- Embedding of `SdePoint::to_rawpoint`: `RawPoint::new(self.x as f32,
self.z as f32)`. The `y` axis is dropped and the narrowing is applied
unconditionally (the function is total: no overflow or range check). -/
def SdePoint.to_rawpoint (p : SdePoint) : RawPoint :=
  ⟨i64AsF32 p.x, i64AsF32 p.z⟩

/-- Embedding of `DivAssign<u64> for SdePoint`: each axis is divided by
`rhs as i64` with Rust's truncating (toward zero) `i64` division, which is
`Int.tdiv`. -/
def SdePoint.divAssignU64 (p : SdePoint) (rhs : Int) : SdePoint :=
  ⟨p.x.tdiv rhs, p.y.tdiv rhs, p.z.tdiv rhs⟩

/-- Embedding of `MulAssign<i32> for SdePoint` (used as `coord *= -1`). -/
def SdePoint.mulAssignI32 (p : SdePoint) (rhs : Int) : SdePoint :=
  ⟨p.x * rhs, p.y * rhs, p.z * rhs⟩

/-- Error kinds of `std::io::Error` as used in objects.rs:
`ErrorKind::NotFound` for the ambiguous-projection error and
`ErrorKind::InvalidData` for "Value Overflow". -/
inductive IoErrorKind where
  | notFound
  | invalidData
deriving DecidableEq, Repr

/-- Embedding of `TryInto<[f32; 2]> for SdePoint` (objects.rs:118-132):
pivot on the first zero axis in the order x, y, z and return the other two
axes narrowed to `f32`; error only when no axis is zero. There is no
overflow check in this instance. -/
def tryIntoF32Pair (p : SdePoint) : Except IoErrorKind (Int × Int) :=
  if p.x = 0 then .ok (i64AsF32 p.y, i64AsF32 p.z)
  else if p.y = 0 then .ok (i64AsF32 p.x, i64AsF32 p.z)
  else if p.z = 0 then .ok (i64AsF32 p.x, i64AsF32 p.y)
  else .error .notFound

/-- Embedding of `TryInto<[i64; 2]> for SdePoint` (objects.rs:151-174):
first the range check against `f32::MAX as i64` / `f32::MIN as i64` (which
saturate to the `i64` extremes, so the check can never fire for genuine
`i64` inputs), then the same first-zero pivot as the `[f32; 2]` instance,
returning the two remaining axes unnarrowed. -/
def tryIntoI64Pair (p : SdePoint) : Except IoErrorKind (Int × Int) :=
  if p.x > f32MaxAsI64 ∨ p.x < f32MinAsI64 ∨ p.y > f32MaxAsI64 ∨ p.y < f32MinAsI64
      ∨ p.z > f32MaxAsI64 ∨ p.z < f32MinAsI64 then .error .invalidData
  else if p.x = 0 then .ok (p.y, p.z)
  else if p.y = 0 then .ok (p.x, p.z)
  else if p.z = 0 then .ok (p.x, p.y)
  else .error .notFound

/-- Embedding of `SdeLine` (objects.rs): a pair of `SdePoint`s. -/
structure SdeLine where
  a : SdePoint
  b : SdePoint
deriving DecidableEq, Repr

/-- Modelled from the spec: `MapPoint` of the external `egui_map` crate —
id, coordinates in final float units, display name and the list of
connection ids attached to the point. -/
structure MapPoint where
  id : Nat
  coords : RawPoint
  name : String
  connections : List String
deriving DecidableEq, Repr

/-- Modelled from the spec: `MapPoint::new(id, coords)` starts with an
empty name and no connections. -/
def MapPoint.new (id : Nat) (coords : RawPoint) : MapPoint :=
  ⟨id, coords, "", []⟩

/-- Modelled from the spec: `MapLine` of the external `egui_map` crate —
two endpoints and an optional string id. -/
structure MapLine where
  p1 : RawPoint
  p2 : RawPoint
  id : Option String
deriving DecidableEq, Repr

/-- Modelled from the spec: `MapLine::new` has no id until one is set. -/
def MapLine.new (p1 p2 : RawPoint) : MapLine :=
  ⟨p1, p2, none⟩

/-- Modelled from the spec: `RawPoint::from([i64; 2])` narrows both
coordinates to `f32` (the crate's own impl is not part of src/). -/
def RawPoint.fromI64Pair (a b : Int) : RawPoint :=
  ⟨i64AsF32 a, i64AsF32 b⟩

/-- Modelled from the spec: `point /= factor` on a `RawPoint` — the scale
factor is "a divisor applied to raw large-magnitude integer coordinates",
modelled as truncating division of each coordinate. -/
def RawPoint.divAssignU64 (p : RawPoint) (rhs : Int) : RawPoint :=
  ⟨p.x.tdiv rhs, p.y.tdiv rhs⟩

/-- Modelled from the spec: `point *= -1` on a `RawPoint` negates both
coordinates. -/
def RawPoint.mulAssignI32 (p : RawPoint) (rhs : Int) : RawPoint :=
  ⟨p.x * rhs, p.y * rhs⟩

/-! ## Entity structures (objects.rs) -/

/-- Embedding of `Region` (objects.rs): id, name, child constellation ids
and (always default) projected coordinates. -/
structure Region where
  id : Nat
  name : String
  constellations : List Nat
  projected_coords : SdePoint
deriving DecidableEq, Repr

/-- Embedding of `Constellation` (objects.rs). -/
structure Constellation where
  id : Nat
  name : String
  region : Nat
  solar_systems : List Nat
  projected_coords : SdePoint
deriving DecidableEq, Repr

/-- Embedding of `SolarSystem` (objects.rs). -/
structure SolarSystem where
  id : Nat
  name : String
  region : Nat
  constellation : Nat
  planets : List Nat
  connections : List Nat
  real_coords : SdePoint
  projected_coords : SdePoint
  factor : Int
deriving DecidableEq, Repr

/-- Embedding of `SolarSystem::new(factor)`: all fields zeroed except the
scale factor. -/
def SolarSystem.new (factor : Int) : SolarSystem :=
  ⟨0, "", 0, 0, [], [], ⟨0, 0, 0⟩, ⟨0, 0, 0⟩, factor⟩

/-- Embedding of `Planet` (objects.rs). -/
structure Planet where
  id : Nat
  solar_system : Nat
  index : Nat
deriving DecidableEq, Repr

/-- Embedding of `Moon` (objects.rs). -/
structure Moon where
  id : Nat
  planet : Nat
  index : Nat
  solar_system : Nat
deriving DecidableEq, Repr

/-- Embedding of `EveRegionArea` (objects.rs). -/
structure EveRegionArea where
  region_id : Nat
  name : String
  min : SdePoint
  max : SdePoint
deriving DecidableEq, Repr

/-- Embedding of `EveRegionArea::new()`. -/
def EveRegionArea.new : EveRegionArea :=
  ⟨0, "", ⟨0, 0, 0⟩, ⟨0, 0, 0⟩⟩

/-- Embedding of `Dictionaries` (objects.rs): the three case-folded
name→id maps. -/
structure Dictionaries where
  system_names : List (String × Nat)
  constellation_names : List (String × Nat)
  region_names : List (String × Nat)
deriving DecidableEq, Repr

/-- Embedding of `Dictionaries::new()`. -/
def Dictionaries.new : Dictionaries :=
  ⟨[], [], []⟩

/-- Embedding of `Universe` (objects.rs): the per-type entity maps, the
dictionaries, the scale factor and the derived connection set. -/
structure Universe where
  regions : List (Nat × Region)
  constellations : List (Nat × Constellation)
  solar_systems : List (Nat × SolarSystem)
  planets : List (Nat × Planet)
  moons : List (Nat × Moon)
  dicts : Dictionaries
  factor : Int
  connections : List (String × SdeLine)
deriving DecidableEq, Repr

/-- Embedding of `Universe::new(factor)`. -/
def Universe.new (factor : Int) : Universe :=
  ⟨[], [], [], [], [], Dictionaries.new, factor, []⟩

/-- Embedding of `SdeManager` (lib.rs) minus the database path, which is
replaced by the explicit `Db` argument of each query method. -/
structure SdeManager where
  «universe» : Universe
  factor : Int
  invert_coordinates : Bool
deriving DecidableEq, Repr

/-- Embedding of `SdeManager::new(path, factor)`: fresh universe and
`invert_coordinates` preset to `true`. -/
def SdeManager.new (factor : Int) : SdeManager :=
  ⟨Universe.new factor, factor, true⟩

/-! ## The sqlite store model

`Db` carries the tables the loaders read, already decoded to their column
types (coordinate columns are stored by the SDE as integral values; the
`f64`/`f32` readback followed by an `as i64` cast in the source is the
identity on them). The two `…QueryErr` flags inject a store/connection
failure (`rusqlite::Error` from `Connection::open_with_flags` or
`Statement::query`) at the corresponding tier, the failure mode §7 of the
spec calls `ConnectionError`/`QueryError`. -/

/-- Row of `mapRegions`. -/
structure RegionRow where
  regionId : Nat
  regionName : String
deriving DecidableEq, Repr

/-- Row of `mapConstellations`: id, name, parent region and the 3D centre
used by `get_solarsystem`'s join. -/
structure ConstRow where
  constellationId : Nat
  constellationName : String
  regionId : Nat
  centerX : Int
  centerY : Int
  centerZ : Int
deriving DecidableEq, Repr

/-- Row of `mapSolarSystems`. -/
structure SysRow where
  solarSystemId : Nat
  solarSystemName : String
  constellationId : Nat
  projX : Int
  projY : Int
  projZ : Int
deriving DecidableEq, Repr

/-- Row of `mapSystemGates`. -/
structure GateRow where
  systemGateId : Nat
  destination : Nat
  solarSystemId : Nat
deriving DecidableEq, Repr

/-- Row of `mapSystemConnections`. -/
structure ConnRow where
  systemConnectionId : String
  systemA : Nat
  systemB : Nat
deriving DecidableEq, Repr

/-- Row of `mapPlanets`. -/
structure PlanetRow where
  planetId : Nat
  planetaryIndex : Nat
  solarSystemId : Nat
deriving DecidableEq, Repr

/-- Row of `mapMoons`. -/
structure MoonRow where
  moonId : Nat
  moonIndex : Nat
  solarSystemId : Nat
  planetId : Nat
deriving DecidableEq, Repr

/-- Errors produced on the rusqlite side of the embedding. -/
inductive DbError where
  /-- A store or connection failure (spec: `ConnectionError`/`QueryError`). -/
  | sqlFailure
  /-- rusqlite's `Error::InvalidParameterCount`: the number of values
  passed to `Statement::query` differs from the statement's `?` count. -/
  | invalidParameterCount
  /-- rusqlite's `Error::InvalidColumnType`: `row.get::<T>` on a column
  whose sqlite value cannot decode to `T`. -/
  | invalidColumnType
deriving DecidableEq, Repr

/-- The modelled sqlite store. -/
structure Db where
  mapRegions : List RegionRow
  mapConstellations : List ConstRow
  mapSolarSystems : List SysRow
  mapSystemGates : List GateRow
  mapSystemConnections : List ConnRow
  mapPlanets : List PlanetRow
  mapMoons : List MoonRow
  constellationQueryErr : Bool
  solarSystemQueryErr : Bool
deriving DecidableEq, Repr

/-- Model of rusqlite's bind-time check in `Statement::query`: the
statement's parameter count must equal the number of supplied values. -/
def bindCheck (stmtParams supplied : Nat) : Except DbError Unit :=
  if stmtParams = supplied then .ok () else .error .invalidParameterCount

/-! ## Coordinate transforms at the call sites of lib.rs -/

/-- Embedding of the inline transform of `get_systempoints`
(lib.rs:144-148) and `get_system_coords` (lib.rs:277-280): `coord /=
self.factor; if self.invert_coordinates { coord *= -1 }` — truncating
division first, then negation of all three axes. -/
def systempointCoordTransform (factor : Int) (invert : Bool) (p : SdePoint) : SdePoint :=
  let coord := p.divAssignU64 factor
  if invert then coord.mulAssignI32 (-1) else coord

/-- Embedding of the `invert_coordinates` block of `get_solarsystem`
(lib.rs:582-589): all three real axes and only the x and y projected axes
are negated; no division by the scale factor happens on this path. -/
def solarsystemApplyInvert (invert : Bool) (o : SolarSystem) : SolarSystem :=
  if invert then
    { o with
        real_coords := ⟨-o.real_coords.x, -o.real_coords.y, -o.real_coords.z⟩,
        projected_coords :=
          ⟨-o.projected_coords.x, -o.projected_coords.y, o.projected_coords.z⟩ }
  else o

/-! ## The tier loaders of `SdeManager` (lib.rs) -/

/-- Embedding of `SdeManager::get_region` (lib.rs:495-540). The `WHERE
regionId IN rarray(?1)` clause is appended only for a non-empty filter,
and — alone among the five tier loaders — the bind is guarded the same
way (`query([])` vs `query([id_list])`), so the parameter counts always
match. A second query per region collects its constellation ids. -/
def get_region (db : Db) (regions : List Nat) : Except DbError (List Region) := do
  let _ ← bindCheck (if regions.isEmpty then 0 else 1)
    (if regions.isEmpty then 0 else 1)
  let rows := if regions.isEmpty then db.mapRegions
    else db.mapRegions.filter (fun r => regions.contains r.regionId)
  .ok <| rows.map (fun r =>
    { id := r.regionId
      name := r.regionName
      constellations :=
        (db.mapConstellations.filter (fun c => c.regionId == r.regionId)).map
          (·.constellationId)
      projected_coords := ⟨0, 0, 0⟩ })

/-- Embedding of `SdeManager::get_constellation` (lib.rs:608-653). The
`WHERE regionId IN rarray(?1)` clause is appended only for a non-empty
filter, but `statement.query(params![id_list])` always binds the id list:
with an empty filter the statement has 0 parameters while 1 value is
supplied, so rusqlite rejects the query. A second query per constellation
collects its solar-system ids. -/
def get_constellation (db : Db) (regions : List Nat) : Except DbError (List Constellation) := do
  if db.constellationQueryErr then .error .sqlFailure else
  let _ ← bindCheck (if regions.isEmpty then 0 else 1) 1
  let rows := if regions.isEmpty then db.mapConstellations
    else db.mapConstellations.filter (fun c => regions.contains c.regionId)
  .ok <| rows.map (fun c =>
    { id := c.constellationId
      name := c.constellationName
      region := c.regionId
      solar_systems :=
        (db.mapSolarSystems.filter (fun s => s.constellationId == c.constellationId)).map
          (·.solarSystemId)
      projected_coords := ⟨0, 0, 0⟩ })

/-- Embedding of the stargate pass of `get_solarsystem` (lib.rs:593-603):
the one-hop neighbours of `sid` are the owners of the gates whose id is
the `destination` of one of `sid`'s own gates. -/
def gateConnections (db : Db) (sid : Nat) : List Nat :=
  (db.mapSystemGates.filter (fun g =>
      ((db.mapSystemGates.filter (fun g2 => g2.solarSystemId == sid)).map
          (·.destination)).contains g.systemGateId)).map
    (·.solarSystemId)

/-- Embedding of `SdeManager::get_solarsystem` (lib.rs:542-605). Like
`get_constellation`, the id list is always bound, so an empty filter makes
rusqlite reject the query. Each row is inner-joined with its
constellation (for the region id and the 3D centre); the coordinates are
stored raw and only negated — never divided by the scale factor — when
`invert` is set; the projected z axis is left at its default 0. A second
pass fills the stargate connections. -/
def get_solarsystem (db : Db) (factor : Int) (invert : Bool) (constellation : List Nat) :
    Except DbError (List SolarSystem) := do
  if db.solarSystemQueryErr then .error .sqlFailure else
  let _ ← bindCheck (if constellation.isEmpty then 0 else 1) 1
  let rows := if constellation.isEmpty then db.mapSolarSystems
    else db.mapSolarSystems.filter (fun s => constellation.contains s.constellationId)
  let objects := rows.filterMap (fun r =>
    (db.mapConstellations.find? (fun c => c.constellationId == r.constellationId)).map
      (fun c =>
        solarsystemApplyInvert invert
          { SolarSystem.new factor with
              id := r.solarSystemId
              name := r.solarSystemName
              constellation := r.constellationId
              real_coords := ⟨c.centerX, c.centerY, c.centerZ⟩
              projected_coords := ⟨r.projX, r.projY, 0⟩
              region := c.regionId }))
  .ok <| objects.map (fun o => { o with connections := gateConnections db o.id })

/-- Embedding of `SdeManager::get_planet` (lib.rs:656-691): same
unconditional bind as `get_constellation`, so an empty filter is
rejected; a non-empty filter selects the planets of the given solar
systems. -/
def get_planet (db : Db) (solar_systems : List Nat) : Except DbError (List Planet) := do
  let _ ← bindCheck (if solar_systems.isEmpty then 0 else 1) 1
  let rows := if solar_systems.isEmpty then db.mapPlanets
    else db.mapPlanets.filter (fun p => solar_systems.contains p.solarSystemId)
  .ok <| rows.map (fun p =>
    { id := p.planetId, solar_system := p.solarSystemId, index := p.planetaryIndex })

/-- Embedding of `SdeManager::get_moon` (lib.rs:694-732): the filter
clause is the scalar `WHERE planetId=?`, yet the whole id list is bound
as one rarray pointer value. An empty filter is rejected by the parameter
count; a non-empty one compares `planetId` with a pointer-typed value,
which SQL sees as NULL, so no row ever matches and the result is empty. -/
def get_moon (db : Db) (planets : List Nat) : Except DbError (List Moon) := do
  let _ ← bindCheck (if planets.isEmpty then 0 else 1) 1
  let rows := db.mapMoons.filter (fun _ => false)
  .ok <| rows.map (fun m =>
    { id := m.moonId, planet := m.planetId, index := m.moonIndex
      solar_system := m.solarSystemId })

/-! ## `SdeManager::get_universe` (lib.rs:60-118)

The method takes `&mut self` and inserts each tier into
`self.universe` as soon as the tier is fetched, so an error raised by a
later tier (the `?` operator) leaves the earlier tiers' insertions in
place. The embedding therefore returns the mutated manager together with
the `Result`. -/

/-- Model of Rust's `String::to_lowercase` as used on entity names:
per-character lowercasing (the SDE names are ASCII), implemented over the
character list so that it reduces in the kernel. -/
def toLowercase (s : String) : String :=
  ⟨s.data.map Char.toLower⟩

/-- One iteration of the region loop of `get_universe` (lib.rs:69-79):
insert the lowercased name into `dicts.region_names` and the region into
`universe.regions`, both with `or_insert`. -/
def addRegion1 (u : Universe) (r : Region) : Universe :=
  { u with
      dicts := { u.dicts with
        region_names := orInsert u.dicts.region_names (toLowercase r.name) r.id }
      regions := orInsert u.regions r.id r }

/-- The whole region loop of `get_universe`. -/
def addRegions (u : Universe) (rs : List Region) : Universe :=
  rs.foldl addRegion1 u

/-- One iteration of the constellation loop of `get_universe`
(lib.rs:84-97). -/
def addConstellation1 (u : Universe) (c : Constellation) : Universe :=
  { u with
      dicts := { u.dicts with
        constellation_names := orInsert u.dicts.constellation_names (toLowercase c.name) c.id }
      constellations := orInsert u.constellations c.id c }

/-- The whole constellation loop of `get_universe`. -/
def addConstellations (u : Universe) (cs : List Constellation) : Universe :=
  cs.foldl addConstellation1 u

/-- One iteration of the solar-system loop of `get_universe`
(lib.rs:103-116). Note the source inserts the system's lowercased name
into `dicts.constellation_names` — not `dicts.system_names`, which no
code path ever fills. -/
def addSystem1 (u : Universe) (s : SolarSystem) : Universe :=
  { u with
      dicts := { u.dicts with
        constellation_names := orInsert u.dicts.constellation_names (toLowercase s.name) s.id }
      solar_systems := orInsert u.solar_systems s.id s }

/-- The whole solar-system loop of `get_universe`. -/
def addSystems (u : Universe) (ss : List SolarSystem) : Universe :=
  ss.foldl addSystem1 u

/-- Embedding of `SdeManager::get_universe` (lib.rs:60-118): regions with
an empty filter, then constellations filtered by the region ids, then
solar systems filtered by the constellation ids, each tier merged into
the universe with `or_insert` before the next tier's query runs. On a
query error the partially updated manager is kept. -/
def get_universe (m : SdeManager) (db : Db) : SdeManager × Except DbError Bool :=
  match get_region db [] with
  | .error e => (m, .error e)
  | .ok regions =>
    let m1 : SdeManager := { m with «universe» := addRegions m.«universe» regions }
    let parent_ids := regions.map (·.id)
    match get_constellation db parent_ids with
    | .error e => (m1, .error e)
    | .ok constellations =>
      let m2 : SdeManager :=
        { m1 with «universe» := addConstellations m1.«universe» constellations }
      let parent_ids2 := constellations.map (·.id)
      match get_solarsystem db m.factor m.invert_coordinates parent_ids2 with
      | .error e => (m2, .error e)
      | .ok solar_systems =>
        ({ m2 with «universe» := addSystems m2.«universe» solar_systems }, .ok true)

/-! ## Point and line extraction (lib.rs) -/

/-- Model of `HashMap::insert(k, v)`: replace the value when the key is
present, append otherwise. -/
def insertA {α β : Type} [DecidableEq α] (l : List (α × β)) (k : α) (v : β) :
    List (α × β) :=
  if k ∈ keysOf l then l.map (fun e => if e.1 = k then (k, v) else e)
  else l ++ [(k, v)]

/-- Embedding of `SdeManager::get_systempoints` (lib.rs:122-154): the
fixed inclusive known-space id band `30000000..=30999999`, the
divide-then-negate transform, and a `MapPoint` per row keyed by system id
(the `min_id` local of the source is never used in the result and is
omitted). -/
def get_systempoints (db : Db) (factor : Int) (invert : Bool) : List (Nat × MapPoint) :=
  (db.mapSolarSystems.filter (fun r =>
      30000000 ≤ r.solarSystemId && r.solarSystemId ≤ 30999999)).foldl
    (fun hm r =>
      let coord := systempointCoordTransform factor invert ⟨r.projX, r.projY, r.projZ⟩
      let point := { MapPoint.new r.solarSystemId coord.to_rawpoint with
        name := r.solarSystemName }
      insertA hm r.solarSystemId point) []

/-- Row loop of `get_system_connections` (lib.rs:170-187) over an
explicit row list: the connection id is appended — via
`entry(..).and_modify(..)`, which never inserts a missing key — to the
connection lists of both endpoint systems. -/
def applyConnRows (hm : List (Nat × MapPoint)) (rows : List ConnRow) :
    List (Nat × MapPoint) :=
  rows.foldl
    (fun h row =>
      let h1 := andModify h row.systemA (fun p =>
        { p with connections := p.connections ++ [row.systemConnectionId] })
      andModify h1 row.systemB (fun p =>
        { p with connections := p.connections ++ [row.systemConnectionId] })) hm

/-- Embedding of `SdeManager::get_system_connections` (lib.rs:156-189):
the row loop applied to the whole `mapSystemConnections` table. -/
def get_system_connections (hm : List (Nat × MapPoint)) (db : Db) :
    List (Nat × MapPoint) :=
  applyConnRows hm db.mapSystemConnections

/-- Embedding of `SdeManager::get_system_coords` (lib.rs:260-284): the
first row with the requested id yields its projected coordinates put
through the same divide-then-negate transform as `get_systempoints`. -/
def get_system_coords (db : Db) (factor : Int) (invert : Bool) (id_node : Nat) :
    Option SdePoint :=
  (db.mapSolarSystems.find? (fun r => r.solarSystemId == id_node)).map
    (fun r => systempointCoordTransform factor invert ⟨r.projX, r.projY, r.projZ⟩)

/-- Line built by `get_connections` for one joined row (lib.rs:301-317):
x/z of each endpoint narrowed to `f32` and back through `i64`, divided by
the factor, then both endpoints negated when inversion is on. -/
def lineOfConnRow (factor : Int) (invert : Bool) (c : ConnRow) (sa sb : SysRow) :
    MapLine :=
  let point1 := (RawPoint.fromI64Pair sa.projX sa.projZ).divAssignU64 factor
  let point2 := (RawPoint.fromI64Pair sb.projX sb.projZ).divAssignU64 factor
  let pair := if invert then (point1.mulAssignI32 (-1), point2.mulAssignI32 (-1))
    else (point1, point2)
  { MapLine.new pair.1 pair.2 with id := some c.systemConnectionId }

/-- Row loop of `SdeManager::get_connections` (lib.rs:286-322) over an
explicit row list: each row is inner-joined with both endpoint systems
(rows with a missing endpoint are dropped by the join) and its line goes
into the output map via `entry(systemConnectionId).or_insert(line)` — the
only deduplication is by connection-id string, not by endpoint pair. -/
def connRowsFold (db : Db) (factor : Int) (invert : Bool)
    (hmap : List (String × MapLine)) (rows : List ConnRow) :
    List (String × MapLine) :=
  rows.foldl
    (fun hmap c =>
      match db.mapSolarSystems.find? (fun s => s.solarSystemId == c.systemA),
            db.mapSolarSystems.find? (fun s => s.solarSystemId == c.systemB) with
      | some sa, some sb =>
          orInsert hmap c.systemConnectionId (lineOfConnRow factor invert c sa sb)
      | _, _ => hmap) hmap

/-- Embedding of `SdeManager::get_connections` proper: the row loop runs
over the whole `mapSystemConnections` table starting from an empty map. -/
def get_connections (db : Db) (factor : Int) (invert : Bool) :
    List (String × MapLine) :=
  connRowsFold db factor invert [] db.mapSystemConnections

/-- Whether a connection row links the unordered pair `{a, b}`. -/
def samePair (r : ConnRow) (a b : Nat) : Bool :=
  (r.systemA == a && r.systemB == b) || (r.systemA == b && r.systemB == a)

/-- Number of entries of a `get_connections` output map whose key is the
id of a connection row linking the unordered pair `{a, b}` (each entry
contributes its one key). -/
def linesForPair (db : Db) (hmap : List (String × MapLine)) (a b : Nat) : Nat :=
  ((keysOf hmap).filter (fun k =>
      db.mapSystemConnections.any (fun r =>
        r.systemConnectionId == k && samePair r a b))).length

/-! ## `SdeManager::get_region_coordinates` (lib.rs:191-234)

The row loop of the source is embedded at the level of decoded sqlite
values because its behaviour hinges on column types: line 214 reads
`row.get(1)` — the TEXT `regionName` column — into the `u32` field
`region_id`, so decoding fails on every row. (The function cannot even
reach the loop against a real store: its SELECT calls the nonexistent
sqlite function `AX(...)`, a typo for `MAX(...)`, so `prepare` already
fails. The embedding keeps the row loop, the part the claims speak
about.) -/

/-- A decoded sqlite value: sqlite INTEGER or TEXT. -/
inductive SqlValue where
  | int (i : Int)
  | text (s : String)
deriving DecidableEq, Repr

/-- rusqlite's `row.get::<u32>`: an INTEGER in `u32` range decodes, TEXT
(or an out-of-range INTEGER) raises a column-type/value error, collapsed
here into `invalidColumnType`. -/
def SqlValue.getU32 : SqlValue → Except DbError Nat
  | .int i => if 0 ≤ i ∧ i ≤ 4294967295 then .ok i.toNat else .error .invalidColumnType
  | .text _ => .error .invalidColumnType

/-- One row of the region-coordinates aggregate query: regionId, then
regionName (TEXT), then the three max and three min coordinates. -/
structure RegionCoordRow where
  regionId : SqlValue
  regionName : SqlValue
  maxX : Int
  maxY : Int
  maxZ : Int
  minX : Int
  minY : Int
  minZ : Int
deriving DecidableEq, Repr

/-- Embedding of the row loop of `get_region_coordinates`
(lib.rs:211-231): `region_id` is assigned from column 0 and then
re-assigned from column 1 (the TEXT name — the second `row.get`
fails); `max` from columns 2-4 and `min` from columns 5-7; when
inversion is on, min and max are swapped and then both negated. -/
def processRegionRow (invert : Bool) (row : RegionCoordRow) :
    Except DbError EveRegionArea := do
  let _ ← row.regionId.getU32
  let rid ← row.regionName.getU32
  let region := { EveRegionArea.new with
    region_id := rid
    max := ⟨row.maxX, row.maxY, row.maxZ⟩
    min := ⟨row.minX, row.minY, row.minZ⟩ }
  let region := if invert then
      { region with
          max := ⟨-region.min.x, -region.min.y, -region.min.z⟩
          min := ⟨-region.max.x, -region.max.y, -region.max.z⟩ }
    else region
  .ok region

/-! ## Lemmas about the `get_universe` insertion loops -/

theorem addRegions_nil (u : Universe) : addRegions u [] = u := rfl

theorem addRegions_cons (u : Universe) (r : Region) (rs : List Region) :
    addRegions u (r :: rs) = addRegions (addRegion1 u r) rs := rfl

theorem addConstellations_cons (u : Universe) (c : Constellation) (cs : List Constellation) :
    addConstellations u (c :: cs) = addConstellations (addConstellation1 u c) cs := rfl

theorem addSystems_cons (u : Universe) (s : SolarSystem) (ss : List SolarSystem) :
    addSystems u (s :: ss) = addSystems (addSystem1 u s) ss := rfl

theorem addRegions_constellations (rs : List Region) (u : Universe) :
    (addRegions u rs).constellations = u.constellations := by
  induction rs generalizing u with
  | nil => rfl
  | cons r rs ih => rw [addRegions_cons]; exact ih (addRegion1 u r)

theorem addRegions_solar_systems (rs : List Region) (u : Universe) :
    (addRegions u rs).solar_systems = u.solar_systems := by
  induction rs generalizing u with
  | nil => rfl
  | cons r rs ih => rw [addRegions_cons]; exact ih (addRegion1 u r)

theorem addRegions_constellation_names (rs : List Region) (u : Universe) :
    (addRegions u rs).dicts.constellation_names = u.dicts.constellation_names := by
  induction rs generalizing u with
  | nil => rfl
  | cons r rs ih => rw [addRegions_cons]; exact ih (addRegion1 u r)

theorem addRegions_system_names (rs : List Region) (u : Universe) :
    (addRegions u rs).dicts.system_names = u.dicts.system_names := by
  induction rs generalizing u with
  | nil => rfl
  | cons r rs ih => rw [addRegions_cons]; exact ih (addRegion1 u r)

theorem addConstellations_regions (cs : List Constellation) (u : Universe) :
    (addConstellations u cs).regions = u.regions := by
  induction cs generalizing u with
  | nil => rfl
  | cons c cs ih => rw [addConstellations_cons]; exact ih (addConstellation1 u c)

theorem addConstellations_solar_systems (cs : List Constellation) (u : Universe) :
    (addConstellations u cs).solar_systems = u.solar_systems := by
  induction cs generalizing u with
  | nil => rfl
  | cons c cs ih => rw [addConstellations_cons]; exact ih (addConstellation1 u c)

theorem addConstellations_region_names (cs : List Constellation) (u : Universe) :
    (addConstellations u cs).dicts.region_names = u.dicts.region_names := by
  induction cs generalizing u with
  | nil => rfl
  | cons c cs ih => rw [addConstellations_cons]; exact ih (addConstellation1 u c)

theorem addConstellations_system_names (cs : List Constellation) (u : Universe) :
    (addConstellations u cs).dicts.system_names = u.dicts.system_names := by
  induction cs generalizing u with
  | nil => rfl
  | cons c cs ih => rw [addConstellations_cons]; exact ih (addConstellation1 u c)

theorem addSystems_regions (ss : List SolarSystem) (u : Universe) :
    (addSystems u ss).regions = u.regions := by
  induction ss generalizing u with
  | nil => rfl
  | cons s ss ih => rw [addSystems_cons]; exact ih (addSystem1 u s)

theorem addSystems_constellations (ss : List SolarSystem) (u : Universe) :
    (addSystems u ss).constellations = u.constellations := by
  induction ss generalizing u with
  | nil => rfl
  | cons s ss ih => rw [addSystems_cons]; exact ih (addSystem1 u s)

theorem addSystems_region_names (ss : List SolarSystem) (u : Universe) :
    (addSystems u ss).dicts.region_names = u.dicts.region_names := by
  induction ss generalizing u with
  | nil => rfl
  | cons s ss ih => rw [addSystems_cons]; exact ih (addSystem1 u s)

theorem addSystems_system_names (ss : List SolarSystem) (u : Universe) :
    (addSystems u ss).dicts.system_names = u.dicts.system_names := by
  induction ss generalizing u with
  | nil => rfl
  | cons s ss ih => rw [addSystems_cons]; exact ih (addSystem1 u s)

theorem addSystems_constellation_names_mono (ss : List SolarSystem) (u : Universe)
    (k : String) (h : k ∈ keysOf u.dicts.constellation_names) :
    k ∈ keysOf (addSystems u ss).dicts.constellation_names := by
  induction ss generalizing u with
  | nil => exact h
  | cons s ss ih =>
      rw [addSystems_cons]
      exact ih (addSystem1 u s) (mem_keysOf_orInsert_of_mem _ _ _ _ h)

theorem mem_keys_addRegions_mono (rs : List Region) (u : Universe)
    (k1 : Nat) (k2 : String) (h1 : k1 ∈ keysOf u.regions)
    (h2 : k2 ∈ keysOf u.dicts.region_names) :
    k1 ∈ keysOf (addRegions u rs).regions ∧
    k2 ∈ keysOf (addRegions u rs).dicts.region_names := by
  induction rs generalizing u with
  | nil => exact ⟨h1, h2⟩
  | cons r rs ih =>
      rw [addRegions_cons]
      exact ih (addRegion1 u r)
        (mem_keysOf_orInsert_of_mem _ _ _ _ h1)
        (mem_keysOf_orInsert_of_mem _ _ _ _ h2)

theorem mem_keys_addConstellations_mono (cs : List Constellation) (u : Universe)
    (k1 : Nat) (k2 : String) (h1 : k1 ∈ keysOf u.constellations)
    (h2 : k2 ∈ keysOf u.dicts.constellation_names) :
    k1 ∈ keysOf (addConstellations u cs).constellations ∧
    k2 ∈ keysOf (addConstellations u cs).dicts.constellation_names := by
  induction cs generalizing u with
  | nil => exact ⟨h1, h2⟩
  | cons c cs ih =>
      rw [addConstellations_cons]
      exact ih (addConstellation1 u c)
        (mem_keysOf_orInsert_of_mem _ _ _ _ h1)
        (mem_keysOf_orInsert_of_mem _ _ _ _ h2)

theorem mem_keys_addSystems_mono (ss : List SolarSystem) (u : Universe)
    (k1 : Nat) (k2 : String) (h1 : k1 ∈ keysOf u.solar_systems)
    (h2 : k2 ∈ keysOf u.dicts.constellation_names) :
    k1 ∈ keysOf (addSystems u ss).solar_systems ∧
    k2 ∈ keysOf (addSystems u ss).dicts.constellation_names := by
  induction ss generalizing u with
  | nil => exact ⟨h1, h2⟩
  | cons s ss ih =>
      rw [addSystems_cons]
      exact ih (addSystem1 u s)
        (mem_keysOf_orInsert_of_mem _ _ _ _ h1)
        (mem_keysOf_orInsert_of_mem _ _ _ _ h2)

theorem mem_keys_addRegions (rs : List Region) (u : Universe) (r : Region) (hr : r ∈ rs) :
    r.id ∈ keysOf (addRegions u rs).regions ∧
    (toLowercase r.name) ∈ keysOf (addRegions u rs).dicts.region_names := by
  induction rs generalizing u with
  | nil => cases hr
  | cons r0 rs ih =>
      rw [addRegions_cons]
      rcases List.mem_cons.mp hr with h0 | h1
      · subst h0
        exact mem_keys_addRegions_mono rs (addRegion1 u r) _ _
          (mem_keysOf_orInsert_self _ _ _)
          (mem_keysOf_orInsert_self _ _ _)
      · exact ih (addRegion1 u r0) h1

theorem mem_keys_addConstellations (cs : List Constellation) (u : Universe)
    (c : Constellation) (hc : c ∈ cs) :
    c.id ∈ keysOf (addConstellations u cs).constellations ∧
    (toLowercase c.name) ∈ keysOf (addConstellations u cs).dicts.constellation_names := by
  induction cs generalizing u with
  | nil => cases hc
  | cons c0 cs ih =>
      rw [addConstellations_cons]
      rcases List.mem_cons.mp hc with h0 | h1
      · subst h0
        exact mem_keys_addConstellations_mono cs (addConstellation1 u c) _ _
          (mem_keysOf_orInsert_self _ _ _)
          (mem_keysOf_orInsert_self _ _ _)
      · exact ih (addConstellation1 u c0) h1

theorem mem_keys_addSystems (ss : List SolarSystem) (u : Universe)
    (s : SolarSystem) (hs : s ∈ ss) :
    s.id ∈ keysOf (addSystems u ss).solar_systems ∧
    (toLowercase s.name) ∈ keysOf (addSystems u ss).dicts.constellation_names := by
  induction ss generalizing u with
  | nil => cases hs
  | cons s0 ss ih =>
      rw [addSystems_cons]
      rcases List.mem_cons.mp hs with h0 | h1
      · subst h0
        exact mem_keys_addSystems_mono ss (addSystem1 u s) _ _
          (mem_keysOf_orInsert_self _ _ _)
          (mem_keysOf_orInsert_self _ _ _)
      · exact ih (addSystem1 u s0) h1

theorem addRegions_eq_self (rs : List Region) (u : Universe)
    (h : ∀ r ∈ rs, r.id ∈ keysOf u.regions ∧
      (toLowercase r.name) ∈ keysOf u.dicts.region_names) :
    addRegions u rs = u := by
  induction rs with
  | nil => rfl
  | cons r0 rs ih =>
      rw [addRegions_cons]
      have h0 := h r0 (List.mem_cons_self r0 rs)
      have hstep : addRegion1 u r0 = u := by
        unfold addRegion1
        rw [orInsert_of_mem _ _ _ h0.2, orInsert_of_mem _ _ _ h0.1]
      rw [hstep]
      exact ih (fun r hr => h r (List.mem_cons_of_mem r0 hr))

theorem addConstellations_eq_self (cs : List Constellation) (u : Universe)
    (h : ∀ c ∈ cs, c.id ∈ keysOf u.constellations ∧
      (toLowercase c.name) ∈ keysOf u.dicts.constellation_names) :
    addConstellations u cs = u := by
  induction cs with
  | nil => rfl
  | cons c0 cs ih =>
      rw [addConstellations_cons]
      have h0 := h c0 (List.mem_cons_self c0 cs)
      have hstep : addConstellation1 u c0 = u := by
        unfold addConstellation1
        rw [orInsert_of_mem _ _ _ h0.2, orInsert_of_mem _ _ _ h0.1]
      rw [hstep]
      exact ih (fun c hc => h c (List.mem_cons_of_mem c0 hc))

theorem addSystems_eq_self (ss : List SolarSystem) (u : Universe)
    (h : ∀ s ∈ ss, s.id ∈ keysOf u.solar_systems ∧
      (toLowercase s.name) ∈ keysOf u.dicts.constellation_names) :
    addSystems u ss = u := by
  induction ss with
  | nil => rfl
  | cons s0 ss ih =>
      rw [addSystems_cons]
      have h0 := h s0 (List.mem_cons_self s0 ss)
      have hstep : addSystem1 u s0 = u := by
        unfold addSystem1
        rw [orInsert_of_mem _ _ _ h0.2, orInsert_of_mem _ _ _ h0.1]
      rw [hstep]
      exact ih (fun s hs => h s (List.mem_cons_of_mem s0 hs))

/-! ## Claim fixtures

Small concrete stores used by the counterexample, evaluation and witness
theorems below. -/

/-- Fixture for C2: one region, one constellation with centre (100, 200,
300), one solar system; factor 10 is used at the call. -/
def dbC2 : Db :=
  { mapRegions := [⟨10, "Alpha"⟩]
    mapConstellations := [⟨20, "Conste", 10, 100, 200, 300⟩]
    mapSolarSystems := [⟨30000001, "Jita", 20, 40, 50, 60⟩]
    mapSystemGates := []
    mapSystemConnections := []
    mapPlanets := []
    mapMoons := []
    constellationQueryErr := false
    solarSystemQueryErr := false }

/-! ## C2 — the coordinate transform across call sites -/

/-- C2, counterexample. The claim says the divide-then-negate transform
`-(p / s)` is applied identically at every call site, including the
solar-system coordinates of `get_solarsystem`. On a store whose
constellation centre has x = 100, with scale factor 10 and inversion on,
`get_solarsystem` stores real x = -100: the raw value negated with no
division, while the claimed transform gives -(100 / 10) = -10. -/
theorem c2_counterexample :
    (get_solarsystem dbC2 10 true [20]).map (fun l => l.map (·.real_coords.x)) =
      .ok [-100] ∧
    (-100 : Int) ≠ -(Int.tdiv 100 10) := by
  exact ⟨rfl, by decide⟩

/-- C2, amended: at the `get_systempoints` / `get_system_coords` call
sites the transform is truncating division by the scale factor first,
then negation of every axis, exactly when inversion is on; at the
`get_solarsystem` call site inversion only negates (all three real axes,
the x and y projected axes) and never divides by the scale factor. -/
theorem c2_amended (p : SdePoint) (s : Int) (o : SolarSystem) (_hs : 0 < s) :
    systempointCoordTransform s false p = ⟨p.x.tdiv s, p.y.tdiv s, p.z.tdiv s⟩ ∧
    systempointCoordTransform s true p =
      ⟨-(p.x.tdiv s), -(p.y.tdiv s), -(p.z.tdiv s)⟩ ∧
    (solarsystemApplyInvert true o).real_coords =
      ⟨-o.real_coords.x, -o.real_coords.y, -o.real_coords.z⟩ ∧
    (solarsystemApplyInvert true o).projected_coords =
      ⟨-o.projected_coords.x, -o.projected_coords.y, o.projected_coords.z⟩ ∧
    solarsystemApplyInvert false o = o := by
  refine ⟨rfl, ?_, rfl, rfl, rfl⟩
  simp [systempointCoordTransform, SdePoint.divAssignU64, SdePoint.mulAssignI32,
    mul_neg_one]

/-- C2, witness: the amended theorem applied at p = (100, 7, -25), s = 10
and a concrete solar system. -/
theorem c2_witness :
    systempointCoordTransform 10 false ⟨100, 7, -25⟩ =
      ⟨Int.tdiv 100 10, Int.tdiv 7 10, Int.tdiv (-25) 10⟩ ∧
    systempointCoordTransform 10 true ⟨100, 7, -25⟩ =
      ⟨-(Int.tdiv 100 10), -(Int.tdiv 7 10), -(Int.tdiv (-25) 10)⟩ ∧
    (solarsystemApplyInvert true (SolarSystem.new 10)).real_coords =
      ⟨-(SolarSystem.new 10).real_coords.x, -(SolarSystem.new 10).real_coords.y,
        -(SolarSystem.new 10).real_coords.z⟩ ∧
    (solarsystemApplyInvert true (SolarSystem.new 10)).projected_coords =
      ⟨-(SolarSystem.new 10).projected_coords.x,
        -(SolarSystem.new 10).projected_coords.y,
        (SolarSystem.new 10).projected_coords.z⟩ ∧
    solarsystemApplyInvert false (SolarSystem.new 10) = SolarSystem.new 10 :=
  c2_amended ⟨100, 7, -25⟩ 10 (SolarSystem.new 10) (by decide)

/-! ## C3 — the 2D axis projections -/

/-- C3, counterexample. The claim says the projection fails when more
than one axis is zero; but on (0, 0, 5) both `TryInto` instances pivot on
the first zero axis (x) and succeed with (y, z) = (0, 5). -/
theorem c3_counterexample :
    tryIntoF32Pair ⟨0, 0, 5⟩ = .ok (0, 5) ∧
    tryIntoI64Pair ⟨0, 0, 5⟩ = .ok (0, 5) := by
  constructor <;> rfl

/-- C3, amended: both projection instances pivot on the first zero axis
in the order x, y, z, returning the other two axes (narrowed to `f32` in
the `[f32; 2]` instance), and fail with the NotFound projection error
exactly when all three axes are nonzero; the `[i64; 2]` instance's
preceding range check never fires for coordinates in `i64` range. -/
theorem c3_amended (p : SdePoint)
    (hb : p.x ≤ f32MaxAsI64 ∧ f32MinAsI64 ≤ p.x ∧ p.y ≤ f32MaxAsI64 ∧
      f32MinAsI64 ≤ p.y ∧ p.z ≤ f32MaxAsI64 ∧ f32MinAsI64 ≤ p.z) :
    (p.x = 0 → tryIntoF32Pair p = .ok (i64AsF32 p.y, i64AsF32 p.z) ∧
      tryIntoI64Pair p = .ok (p.y, p.z)) ∧
    (p.x ≠ 0 → p.y = 0 → tryIntoF32Pair p = .ok (i64AsF32 p.x, i64AsF32 p.z) ∧
      tryIntoI64Pair p = .ok (p.x, p.z)) ∧
    (p.x ≠ 0 → p.y ≠ 0 → p.z = 0 →
      tryIntoF32Pair p = .ok (i64AsF32 p.x, i64AsF32 p.y) ∧
      tryIntoI64Pair p = .ok (p.x, p.y)) ∧
    (p.x ≠ 0 → p.y ≠ 0 → p.z ≠ 0 → tryIntoF32Pair p = .error .notFound ∧
      tryIntoI64Pair p = .error .notFound) := by
  obtain ⟨h1, h2, h3, h4, h5, h6⟩ := hb
  have hguard : ¬(p.x > f32MaxAsI64 ∨ p.x < f32MinAsI64 ∨ p.y > f32MaxAsI64 ∨
      p.y < f32MinAsI64 ∨ p.z > f32MaxAsI64 ∨ p.z < f32MinAsI64) := by
    push_neg
    exact ⟨h1, h2, h3, h4, h5, h6⟩
  refine ⟨fun hx => ?_, fun hx hy => ?_, fun hx hy hz => ?_, fun hx hy hz => ?_⟩ <;>
    simp [tryIntoF32Pair, tryIntoI64Pair, hguard, hx] <;>
    simp_all [tryIntoF32Pair, tryIntoI64Pair]

/-- C3, witness: the spec's own scenario y = 0 with x, z nonzero at
p = (3, 0, 5) returns (x, z). -/
theorem c3_witness :
    tryIntoF32Pair ⟨3, 0, 5⟩ = .ok (i64AsF32 3, i64AsF32 5) ∧
    tryIntoI64Pair ⟨3, 0, 5⟩ = .ok (3, 5) :=
  (c3_amended ⟨3, 0, 5⟩ (by decide)).2.1 (by decide) rfl

/-! ## C8 — `get_region_coordinates` -/

/-- C8: evaluation of the row loop of `get_region_coordinates` at a
well-typed aggregate row (INTEGER id, TEXT name, max = (5, 6, 7), min =
(1, 2, 3), inversion on). The claim expects an `EveRegionArea` with
swapped-then-negated corners; the code instead fails on every row,
because line 214 decodes the TEXT `regionName` column into the `u32`
`region_id` field. (Against a real store the enclosing query fails even
earlier: its SELECT calls the nonexistent sqlite function `AX`.) -/
theorem c8_eval :
    processRegionRow true ⟨.int 10000001, .text "Derelik", 5, 6, 7, 1, 2, 3⟩ =
      .error .invalidColumnType ∧
    processRegionRow false ⟨.int 10000001, .text "Derelik", 5, 6, 7, 1, 2, 3⟩ =
      .error .invalidColumnType := by
  exact ⟨rfl, rfl⟩

/-! ## C10 — `SdePoint::to_rawpoint` -/

/-- C10: `to_rawpoint` is exactly `(x as f32, z as f32)`; the y axis
never influences the result (two points equal in x and z yield the same
`RawPoint`), and the narrowing is total — applied unconditionally with no
overflow or range check, in contrast to the checked `TryInto` paths. -/
theorem c10_to_rawpoint (p q : SdePoint) (hx : p.x = q.x) (hz : p.z = q.z) :
    SdePoint.to_rawpoint p = SdePoint.to_rawpoint q ∧
    SdePoint.to_rawpoint p = ⟨i64AsF32 p.x, i64AsF32 p.z⟩ := by
  constructor
  · simp [SdePoint.to_rawpoint, hx, hz]
  · rfl

/-- C10, witness: (1, 2, 3) and (1, 7, 3) differ only in y and map to the
same raw point. -/
theorem c10_witness :
    SdePoint.to_rawpoint ⟨1, 2, 3⟩ = SdePoint.to_rawpoint ⟨1, 7, 3⟩ ∧
    SdePoint.to_rawpoint ⟨1, 2, 3⟩ = ⟨i64AsF32 1, i64AsF32 3⟩ :=
  c10_to_rawpoint ⟨1, 2, 3⟩ ⟨1, 7, 3⟩ rfl rfl

/-! ## C9 — `get_system_connections` preserves the point map's keys -/

theorem applyConnRows_cons (hm : List (Nat × MapPoint)) (r : ConnRow)
    (rs : List ConnRow) :
    applyConnRows hm (r :: rs) =
      applyConnRows
        (andModify
          (andModify hm r.systemA (fun p =>
            { p with connections := p.connections ++ [r.systemConnectionId] }))
          r.systemB (fun p =>
            { p with connections := p.connections ++ [r.systemConnectionId] }))
        rs := rfl

theorem keysOf_applyConnRows (rows : List ConnRow) (hm : List (Nat × MapPoint)) :
    keysOf (applyConnRows hm rows) = keysOf hm := by
  induction rows generalizing hm with
  | nil => rfl
  | cons r rs ih =>
      rw [applyConnRows_cons, ih, keysOf_andModify, keysOf_andModify]

theorem lookupA_applyConnRows (rows : List ConnRow) (hm : List (Nat × MapPoint))
    (sid : Nat) (h : ∀ r ∈ rows, r.systemA ≠ sid ∧ r.systemB ≠ sid) :
    lookupA (applyConnRows hm rows) sid = lookupA hm sid := by
  induction rows generalizing hm with
  | nil => rfl
  | cons r rs ih =>
      have h0 := h r (List.mem_cons_self r rs)
      rw [applyConnRows_cons, ih _ (fun r' hr' => h r' (List.mem_cons_of_mem r hr')),
        lookupA_andModify_ne _ _ _ _ h0.2, lookupA_andModify_ne _ _ _ _ h0.1]

/-- C9: `get_system_connections` returns a map with exactly the keys of
the map it was given — no point is inserted or removed — and a system id
mentioned by no connection row keeps its stored point (hence its
connection list) unchanged. -/
theorem c9_attach_preserves (hm : List (Nat × MapPoint)) (db : Db) (sid : Nat)
    (h : ∀ r ∈ db.mapSystemConnections, r.systemA ≠ sid ∧ r.systemB ≠ sid) :
    keysOf (get_system_connections hm db) = keysOf hm ∧
    lookupA (get_system_connections hm db) sid = lookupA hm sid := by
  unfold get_system_connections
  exact ⟨keysOf_applyConnRows _ _, lookupA_applyConnRows _ _ _ h⟩

/-- Fixture for the C9 witness: one stored point with id 5 and one
connection row between systems 1 and 2. -/
def dbC9 : Db :=
  { mapRegions := []
    mapConstellations := []
    mapSolarSystems := []
    mapSystemGates := []
    mapSystemConnections := [⟨"c1", 1, 2⟩]
    mapPlanets := []
    mapMoons := []
    constellationQueryErr := false
    solarSystemQueryErr := false }

/-- Point map for the C9 witness. -/
def hmC9 : List (Nat × MapPoint) := [(5, MapPoint.new 5 ⟨0, 0⟩)]

/-- C9, witness: system 5 appears in no connection row, so both its key
and its stored point survive `get_system_connections` unchanged. -/
theorem c9_witness :
    keysOf (get_system_connections hmC9 dbC9) = keysOf hmC9 ∧
    lookupA (get_system_connections hmC9 dbC9) 5 = lookupA hmC9 5 :=
  c9_attach_preserves hmC9 dbC9 5 (by decide)

/-! ## C4 — empty versus non-empty parent-id filters -/

/-- Fixture for C4: every table non-empty, no failure injection. -/
def dbC4 : Db :=
  { mapRegions := [⟨10, "Alpha"⟩]
    mapConstellations := [⟨20, "Conste", 10, 100, 200, 300⟩]
    mapSolarSystems := [⟨30000001, "Jita", 20, 40, 50, 60⟩]
    mapSystemGates := []
    mapSystemConnections := []
    mapPlanets := [⟨77, 1, 30000001⟩]
    mapMoons := [⟨70, 1, 30000001, 77⟩]
    constellationQueryErr := false
    solarSystemQueryErr := false }

/-- C4: evaluation of the five tier loaders on `dbC4`. Only `get_region`
accepts the empty filter (and returns the whole table); the other four
always bind the id-list value, so with an empty filter — no `WHERE`
clause, hence a statement with zero parameters — rusqlite rejects the
call with `InvalidParameterCount` instead of loading the whole table.
`get_moon` additionally returns no rows even for a non-empty filter,
because its scalar `planetId=?` comparison against the bound rarray
pointer is a SQL NULL comparison. -/
theorem c4_eval :
    (get_region dbC4 []).map (fun l => l.map (·.id)) = .ok [10] ∧
    get_constellation dbC4 [] = .error .invalidParameterCount ∧
    get_solarsystem dbC4 1 false [] = .error .invalidParameterCount ∧
    get_planet dbC4 [] = .error .invalidParameterCount ∧
    get_moon dbC4 [] = .error .invalidParameterCount ∧
    get_moon dbC4 [77] = .ok [] ∧
    dbC4.mapConstellations ≠ [] ∧ dbC4.mapMoons ≠ [] := by
  refine ⟨rfl, rfl, rfl, rfl, rfl, rfl, ?_, ?_⟩ <;> decide

/-! ## C6 — the name index after a successful `get_universe` -/

/-- Fixture for C6: one region "Alpha", one constellation "Conste", one
solar system "Jita" with id 30000001. -/
def dbC6 : Db :=
  { mapRegions := [⟨10, "Alpha"⟩]
    mapConstellations := [⟨20, "Conste", 10, 100, 200, 300⟩]
    mapSolarSystems := [⟨30000001, "Jita", 20, 40, 50, 60⟩]
    mapSystemGates := []
    mapSystemConnections := []
    mapPlanets := []
    mapMoons := []
    constellationQueryErr := false
    solarSystemQueryErr := false }

/-- C6: after a successful `get_universe` the region and constellation
dictionaries hold the lowercased names as the claim says, but the solar
system "Jita" is indexed in `constellation_names` — the loop at
lib.rs:107-111 inserts system names into the constellation dictionary —
while `system_names`, which the claim says receives it, stays empty. -/
theorem c6_eval :
    (get_universe (SdeManager.new 10) dbC6).2 = .ok true ∧
    lookupA (get_universe (SdeManager.new 10) dbC6).1.«universe».dicts.region_names
      "alpha" = some 10 ∧
    lookupA (get_universe (SdeManager.new 10) dbC6).1.«universe».dicts.constellation_names
      "conste" = some 20 ∧
    (get_universe (SdeManager.new 10) dbC6).1.«universe».dicts.system_names = [] ∧
    lookupA (get_universe (SdeManager.new 10) dbC6).1.«universe».dicts.constellation_names
      "jita" = some 30000001 := by
  refine ⟨rfl, rfl, rfl, rfl, rfl⟩

/-! ## C1 — failure in a later tier keeps earlier tiers' insertions -/

/-- Fixture for C1: one region in the store and a failure injected into
the constellation-tier query. -/
def dbC1 : Db :=
  { mapRegions := [⟨10, "Alpha"⟩]
    mapConstellations := []
    mapSolarSystems := []
    mapSystemGates := []
    mapSystemConnections := []
    mapPlanets := []
    mapMoons := []
    constellationQueryErr := true
    solarSystemQueryErr := false }

/-- C1, counterexample. The claim says a failing `get_constellation`
leaves the regions map unchanged from its pre-call state. Starting from a
fresh manager (empty regions map), `get_universe` against `dbC1` fails at
the constellation tier, yet region 10 is left inserted in the regions
map. -/
theorem c1_counterexample :
    (SdeManager.new 10).«universe».regions = [] ∧
    (get_universe (SdeManager.new 10) dbC1).2 = .error .sqlFailure ∧
    ((get_universe (SdeManager.new 10) dbC1).1.«universe».regions.map (·.1)) = [10] := by
  refine ⟨rfl, rfl, rfl⟩

/-- C1, amended: when the constellation-tier query fails, `get_universe`
propagates the error, but the regions fetched in the same pass remain
merged (via `or_insert`) into the Universe's regions map and region-name
dictionary; the maps and dictionaries of the tiers at and below the
failure point are left unchanged. -/
theorem c1_amended (m : SdeManager) (db : Db) (rs : List Region)
    (h1 : db.constellationQueryErr = true) (h2 : get_region db [] = .ok rs) :
    (get_universe m db).2 = .error .sqlFailure ∧
    (get_universe m db).1.«universe» = addRegions m.«universe» rs ∧
    (get_universe m db).1.«universe».constellations = m.«universe».constellations ∧
    (get_universe m db).1.«universe».solar_systems = m.«universe».solar_systems ∧
    (get_universe m db).1.«universe».dicts.constellation_names =
      m.«universe».dicts.constellation_names ∧
    (get_universe m db).1.«universe».dicts.system_names =
      m.«universe».dicts.system_names := by
  have hcon : get_constellation db (rs.map (·.id)) = .error .sqlFailure := by
    unfold get_constellation
    rw [h1]
    rfl
  have hred : get_universe m db =
      ({ m with «universe» := addRegions m.«universe» rs }, .error .sqlFailure) := by
    unfold get_universe
    simp only [h2, hcon]
  rw [hred]
  exact ⟨rfl, rfl, addRegions_constellations rs m.«universe»,
    addRegions_solar_systems rs m.«universe»,
    addRegions_constellation_names rs m.«universe»,
    addRegions_system_names rs m.«universe»⟩

/-- C1, witness: the amended theorem applied to a fresh manager and
`dbC1`, whose region table holds exactly region 10 "Alpha". -/
theorem c1_witness :
    (get_universe (SdeManager.new 10) dbC1).2 = .error .sqlFailure ∧
    (get_universe (SdeManager.new 10) dbC1).1.«universe» =
      addRegions (SdeManager.new 10).«universe» [⟨10, "Alpha", [], ⟨0, 0, 0⟩⟩] ∧
    (get_universe (SdeManager.new 10) dbC1).1.«universe».constellations =
      (SdeManager.new 10).«universe».constellations ∧
    (get_universe (SdeManager.new 10) dbC1).1.«universe».solar_systems =
      (SdeManager.new 10).«universe».solar_systems ∧
    (get_universe (SdeManager.new 10) dbC1).1.«universe».dicts.constellation_names =
      (SdeManager.new 10).«universe».dicts.constellation_names ∧
    (get_universe (SdeManager.new 10) dbC1).1.«universe».dicts.system_names =
      (SdeManager.new 10).«universe».dicts.system_names :=
  c1_amended (SdeManager.new 10) dbC1 [⟨10, "Alpha", [], ⟨0, 0, 0⟩⟩] rfl rfl

/-! ## C7 — reloading an unchanged source -/

/-- Fixture for the C7 counterexample, first load: region 10 named
"Alpha". -/
def dbC7a : Db :=
  { mapRegions := [⟨10, "Alpha"⟩]
    mapConstellations := [⟨20, "Conste", 10, 100, 200, 300⟩]
    mapSolarSystems := [⟨30000001, "Jita", 20, 40, 50, 60⟩]
    mapSystemGates := []
    mapSystemConnections := []
    mapPlanets := []
    mapMoons := []
    constellationQueryErr := false
    solarSystemQueryErr := false }

/-- Fixture for the C7 counterexample, second load: the same store with
region 10 renamed to "Beta". -/
def dbC7b : Db :=
  { dbC7a with mapRegions := [⟨10, "Beta"⟩] }

/-- C7, counterexample. The claim says a second `get_universe` produces a
fresh snapshot whose content comes from the second pass. Loading "Alpha"
and then reloading from a store where region 10 is named "Beta" leaves
the stored region named "Alpha": every insert goes through `or_insert`
into the same retained maps, so the first pass wins on content and no
fresh snapshot is taken. -/
theorem c7_counterexample :
    dbC7b.mapRegions = [⟨10, "Beta"⟩] ∧
    (get_universe (get_universe (SdeManager.new 10) dbC7a).1 dbC7b).2 = .ok true ∧
    (lookupA (get_universe (get_universe (SdeManager.new 10) dbC7a).1 dbC7b).1.«universe».regions
        10).map (·.name) = some "Alpha" := by
  refine ⟨rfl, rfl, rfl⟩

/-- C7, amended: over an unchanged source, a second `get_universe` is a
complete no-op — it returns the identical manager state and the identical
result (hence identical entity counts) — because every fetched entity is
already present and `or_insert` leaves existing entries untouched; the
second pass merges into the retained maps (first call wins on content)
rather than building a fresh snapshot. -/
theorem c7_reload_noop (m : SdeManager) (db : Db) :
    get_universe (get_universe m db).1 db = get_universe m db ∧
    (get_universe (get_universe m db).1 db).1.«universe».regions.length =
      (get_universe m db).1.«universe».regions.length ∧
    (get_universe (get_universe m db).1 db).1.«universe».constellations.length =
      (get_universe m db).1.«universe».constellations.length ∧
    (get_universe (get_universe m db).1 db).1.«universe».solar_systems.length =
      (get_universe m db).1.«universe».solar_systems.length := by
  have hmain : get_universe (get_universe m db).1 db = get_universe m db := by
    cases hreg : get_region db [] with
    | error e => simp [get_universe, hreg]
    | ok regions =>
      cases hcon : get_constellation db (regions.map (·.id)) with
      | error e =>
          have hA : addRegions (addRegions m.«universe» regions) regions =
              addRegions m.«universe» regions :=
            addRegions_eq_self _ _
              (fun r hr => mem_keys_addRegions regions m.«universe» r hr)
          simp [get_universe, hreg, hcon, hA]
      | ok cs =>
        cases hsol : get_solarsystem db m.factor m.invert_coordinates
            (cs.map (·.id)) with
        | error e =>
            have hA : addRegions
                (addConstellations (addRegions m.«universe» regions) cs) regions =
                addConstellations (addRegions m.«universe» regions) cs := by
              apply addRegions_eq_self
              intro r hr
              constructor
              · rw [addConstellations_regions]
                exact (mem_keys_addRegions regions m.«universe» r hr).1
              · rw [addConstellations_region_names]
                exact (mem_keys_addRegions regions m.«universe» r hr).2
            have hB : addConstellations
                (addConstellations (addRegions m.«universe» regions) cs) cs =
                addConstellations (addRegions m.«universe» regions) cs :=
              addConstellations_eq_self _ _
                (fun c hc =>
                  mem_keys_addConstellations cs (addRegions m.«universe» regions) c hc)
            simp [get_universe, hreg, hcon, hsol, hA, hB]
        | ok ss =>
            have hA : addRegions
                (addSystems (addConstellations (addRegions m.«universe» regions) cs) ss)
                regions =
                addSystems (addConstellations (addRegions m.«universe» regions) cs) ss := by
              apply addRegions_eq_self
              intro r hr
              constructor
              · rw [addSystems_regions, addConstellations_regions]
                exact (mem_keys_addRegions regions m.«universe» r hr).1
              · rw [addSystems_region_names, addConstellations_region_names]
                exact (mem_keys_addRegions regions m.«universe» r hr).2
            have hB : addConstellations
                (addSystems (addConstellations (addRegions m.«universe» regions) cs) ss)
                cs =
                addSystems (addConstellations (addRegions m.«universe» regions) cs) ss := by
              apply addConstellations_eq_self
              intro c hc
              constructor
              · rw [addSystems_constellations]
                exact
                  (mem_keys_addConstellations cs (addRegions m.«universe» regions) c hc).1
              · exact addSystems_constellation_names_mono ss _ _
                  (mem_keys_addConstellations cs (addRegions m.«universe» regions) c hc).2
            have hC : addSystems
                (addSystems (addConstellations (addRegions m.«universe» regions) cs) ss)
                ss =
                addSystems (addConstellations (addRegions m.«universe» regions) cs) ss :=
              addSystems_eq_self _ _
                (fun s hs =>
                  mem_keys_addSystems ss
                    (addConstellations (addRegions m.«universe» regions) cs) s hs)
            simp [get_universe, hreg, hcon, hsol, hA, hB, hC]
  exact ⟨hmain, by rw [hmain], by rw [hmain], by rw [hmain]⟩

/-! ## C5 — one line per connected pair in `get_connections` -/

theorem connRowsFold_cons_found (db : Db) (factor : Int) (invert : Bool)
    (hmap : List (String × MapLine)) (c : ConnRow) (rows : List ConnRow)
    (sa sb : SysRow)
    (hsa : db.mapSolarSystems.find? (fun s => s.solarSystemId == c.systemA) = some sa)
    (hsb : db.mapSolarSystems.find? (fun s => s.solarSystemId == c.systemB) = some sb) :
    connRowsFold db factor invert hmap (c :: rows) =
      connRowsFold db factor invert
        (orInsert hmap c.systemConnectionId (lineOfConnRow factor invert c sa sb))
        rows := by
  simp only [connRowsFold, List.foldl_cons, hsa, hsb]

theorem keysOf_connRowsFold (db : Db) (factor : Int) (invert : Bool)
    (rows : List ConnRow) (hmap : List (String × MapLine))
    (hall : ∀ r ∈ rows,
      (db.mapSolarSystems.find? (fun s => s.solarSystemId == r.systemA)).isSome ∧
      (db.mapSolarSystems.find? (fun s => s.solarSystemId == r.systemB)).isSome)
    (hfresh : ∀ r ∈ rows, r.systemConnectionId ∉ keysOf hmap)
    (hnd : (rows.map (·.systemConnectionId)).Nodup) :
    keysOf (connRowsFold db factor invert hmap rows) =
      keysOf hmap ++ rows.map (·.systemConnectionId) := by
  induction rows generalizing hmap with
  | nil => simp [connRowsFold]
  | cons c rows ih =>
      obtain ⟨hA, hB⟩ := hall c (List.mem_cons_self c rows)
      obtain ⟨sa, hsa⟩ := Option.isSome_iff_exists.mp hA
      obtain ⟨sb, hsb⟩ := Option.isSome_iff_exists.mp hB
      rw [connRowsFold_cons_found db factor invert hmap c rows sa sb hsa hsb]
      have hc : c.systemConnectionId ∉ keysOf hmap :=
        hfresh c (List.mem_cons_self c rows)
      rw [List.map_cons] at hnd
      have hnd' := List.nodup_cons.mp hnd
      have hkeys :
          keysOf (orInsert hmap c.systemConnectionId
            (lineOfConnRow factor invert c sa sb)) =
          keysOf hmap ++ [c.systemConnectionId] := by
        rw [orInsert, if_neg hc, keysOf_append]
        rfl
      rw [ih _
        (fun r hr => hall r (List.mem_cons_of_mem c hr))
        (fun r hr => by
          rw [hkeys]
          intro hmem
          rcases List.mem_append.mp hmem with h1 | h2
          · exact hfresh r (List.mem_cons_of_mem c hr) h1
          · have : r.systemConnectionId = c.systemConnectionId :=
              List.mem_singleton.mp h2
            exact hnd'.1 (this ▸ List.mem_map_of_mem _ hr))
        hnd'.2]
      rw [hkeys, List.append_assoc]
      rfl

theorem connRows_any_id (rows : List ConnRow) (r : ConnRow) (a b : Nat)
    (hnd : (rows.map (·.systemConnectionId)).Nodup) (hr : r ∈ rows) :
    (rows.any (fun r2 =>
      r2.systemConnectionId == r.systemConnectionId && samePair r2 a b)) =
      samePair r a b := by
  induction rows with
  | nil => cases hr
  | cons r0 rows ih =>
      rw [List.map_cons] at hnd
      have hnd' := List.nodup_cons.mp hnd
      rw [List.any_cons]
      rcases List.mem_cons.mp hr with h0 | h1
      · subst h0
        have htail : rows.any (fun r2 =>
            r2.systemConnectionId == r.systemConnectionId && samePair r2 a b) = false := by
          rw [List.any_eq_false]
          intro r2 hr2
          intro hcontra
          rw [Bool.and_eq_true, beq_iff_eq] at hcontra
          exact hnd'.1 (hcontra.1 ▸ List.mem_map_of_mem _ hr2)
        simp [htail]
      · have hhead : (r0.systemConnectionId == r.systemConnectionId) = false := by
          rw [beq_eq_false_iff_ne]
          intro hEq
          exact hnd'.1 (hEq ▸ List.mem_map_of_mem _ h1)
        simp [hhead, ih hnd'.2 h1]

/-- C5, amended: the claim holds only under side conditions the source
leaves implicit — the connection rows carry pairwise distinct ids, every
endpoint system resolves in `mapSolarSystems` (the inner join drops the
row otherwise), and the table holds exactly one row for the unordered
pair: then `get_connections` emits exactly one line for that pair. With
duplicate rows for a pair under distinct ids, one line per row is
emitted (see the counterexample). -/
theorem c5_amended (db : Db) (factor : Int) (invert : Bool) (a b : Nat)
    (hnd : (db.mapSystemConnections.map (·.systemConnectionId)).Nodup)
    (hall : ∀ r ∈ db.mapSystemConnections,
      (db.mapSolarSystems.find? (fun s => s.solarSystemId == r.systemA)).isSome ∧
      (db.mapSolarSystems.find? (fun s => s.solarSystemId == r.systemB)).isSome)
    (hone : (db.mapSystemConnections.filter (fun r => samePair r a b)).length = 1) :
    linesForPair db (get_connections db factor invert) a b = 1 := by
  unfold linesForPair get_connections
  rw [keysOf_connRowsFold db factor invert db.mapSystemConnections [] hall
    (fun r _ => by simp [keysOf]) hnd]
  rw [keysOf_nil, List.nil_append]
  rw [List.filter_map, List.length_map]
  simp only [Function.comp_def]
  rw [List.filter_congr (fun r hr =>
    connRows_any_id db.mapSystemConnections r a b hnd hr)]
  exact hone

/-- Fixture for the C5 counterexample: two rows with distinct connection
ids both linking systems 1 and 2 (in the two orientations). -/
def dbC5 : Db :=
  { mapRegions := []
    mapConstellations := []
    mapSolarSystems := [⟨1, "A", 20, 40, 50, 60⟩, ⟨2, "B", 20, 70, 80, 90⟩]
    mapSystemGates := []
    mapSystemConnections := [⟨"c1", 1, 2⟩, ⟨"c2", 2, 1⟩]
    mapPlanets := []
    mapMoons := []
    constellationQueryErr := false
    solarSystemQueryErr := false }

/-- C5, counterexample. The claim quantifies over every input set of
connection rows and promises exactly one line per connected pair; on a
row set holding two rows with distinct ids for the pair (1, 2),
`get_connections` — which deduplicates only by connection-id string —
emits two lines for that pair. -/
theorem c5_counterexample :
    dbC5.mapSystemConnections = [⟨"c1", 1, 2⟩, ⟨"c2", 2, 1⟩] ∧
    linesForPair dbC5 (get_connections dbC5 1 false) 1 2 = 2 := by
  refine ⟨rfl, rfl⟩

/-- Fixture for the C5 witness: a single row for the pair (1, 2). -/
def dbC5w : Db :=
  { dbC5 with mapSystemConnections := [⟨"c1", 1, 2⟩] }

/-- C5, witness: the amended theorem applied to a store holding exactly
one row for the connected pair (1, 2). -/
theorem c5_witness : linesForPair dbC5w (get_connections dbC5w 7 true) 1 2 = 1 :=
  c5_amended dbC5w 7 true 1 2 (by decide) (by decide) (by decide)

end Sde





